import Mathlib

/-!
Shallow embedding of the authentication and credential-lifecycle subsystem
of the NOTE-MITRA application (server/src/controllers/authController.ts,
server/src/models/PasswordReset.ts, server/src/utils/email.ts,
server/src/middleware/rateLimiter.ts, server/src/middleware/validators.ts).

Timestamps are milliseconds since epoch, modelled as `Nat` (`Date.now()`).
The SHA-256 hex digest (`crypto.createHash("sha256")`) is modelled as an
abstract function parameter `hash : String → String`; theorems that need
collision-freeness take `Function.Injective hash` as a hypothesis.
`crypto.randomBytes(32)` is modelled by passing the 32 random bytes in as
an input `bytes : List Nat`, hex-encoded by the executable `bytesToHex`
below exactly as `Buffer.toString("hex")` does.
-/

/-- Record of the PasswordReset collection (models/PasswordReset.ts): a
document with an id (`_id`), the owning user, the SHA-256 hex digest of
the plaintext token, an expiry timestamp and a used flag. -/
structure PasswordResetRec where
  id : Nat
  userId : Nat
  tokenHash : String
  expiresAt : Nat
  used : Bool
deriving Repr, DecidableEq

/-- Record of the RefreshToken collection: id (`_id`), owning user, the
opaque token value, and the expiry timestamp. -/
structure RefreshTokenRec where
  id : Nat
  userId : Nat
  token : String
  expiresAt : Nat
deriving Repr, DecidableEq

/-- Record of the User collection, restricted to the fields the auth flows
read: id (`_id`), email, nullable password hash, nullable federated
identity reference (`googleId`), and display name. -/
structure UserRec where
  id : Nat
  email : String
  passwordHash : Option String
  googleId : Option String
  name : String
deriving Repr, DecidableEq

/-- The persistent state the auth flows touch: the three collections. -/
structure AuthDB where
  users : List UserRec
  resets : List PasswordResetRec
  refreshTokens : List RefreshTokenRec
deriving Repr, DecidableEq

/-- An HTTP response as observed by the client: status code and body text. -/
structure HttpResp where
  status : Nat
  body : String
deriving Repr, DecidableEq

/-- Hex digit characters as produced by Node `Buffer.toString("hex")`:
0-9 then lowercase a-f. -/
def hexDigit (n : Nat) : Char :=
  if n < 10 then Char.ofNat (48 + n) else Char.ofNat (87 + n)

/-- Hex encoding of one byte: two hex digits, high nibble first. -/
def byteToHex (b : Nat) : String :=
  String.mk [hexDigit (b / 16), hexDigit (b % 16)]

/-- Hex encoding of a byte sequence, as in
`crypto.randomBytes(32).toString("hex")`: concatenation of the per-byte
encodings. -/
def bytesToHex (bs : List Nat) : String :=
  match bs with
  | [] => ""
  | b :: t => byteToHex b ++ bytesToHex t

/-- A character is a lowercase hex digit. -/
def isLowerHexChar (c : Char) : Bool :=
  (48 ≤ c.toNat && c.toNat ≤ 57) || (97 ≤ c.toNat && c.toNat ≤ 102)

/-- A string consists only of lowercase hex digits. -/
def isHexStr (s : String) : Bool :=
  s.data.all isLowerHexChar

/-- Lowercasing as used by `email.toLowerCase()` (ASCII range), written
character by character over the underlying list so that the kernel can
evaluate it. -/
def lowerStr (s : String) : String :=
  String.mk (s.data.map Char.toLower)

/-- The reset-token lookup shared by resetPassword and verifyResetToken
(authController.ts lines 376-380 and 436-440, and the verifyToken static of
models/PasswordReset.ts): find a record whose tokenHash equals the SHA-256
digest of the supplied plaintext, with `used = false` and
`expiresAt > now` (strict). -/
def verifyReset (hash : String → String) (resets : List PasswordResetRec)
    (token : String) (now : Nat) : Option PasswordResetRec :=
  resets.find? (fun r =>
    r.tokenHash == hash token && r.used == false && decide (now < r.expiresAt))

/-- The constant success message of forgot-password
(authController.ts line 308). -/
def forgotSuccessMsg : String :=
  "If an account with that email exists, a password reset link has been sent."

/-- The forgotPassword handler (authController.ts lines 293-352), after
validation and the rate limiter have admitted the request.
`bytes` models the output of `crypto.randomBytes(32)`, `newId` the fresh
document id Mongo assigns, and `deliveryOk` the boolean result of
`sendPasswordResetEmail` — which the handler awaits and discards, and which
never throws (utils/email.ts catches transport errors and returns false).
The middle component of the result is the email-delivery side channel:
`some (to, plainToken)` when `sendPasswordResetEmail(email, plainToken, _)`
is invoked, `none` otherwise. -/
def forgotPassword (hash : String → String) (db : AuthDB) (email : String)
    (bytes : List Nat) (newId : Nat) (deliveryOk : Bool) (now : Nat) :
    AuthDB × Option (String × String) × HttpResp :=
  match db.users.find? (fun u => u.email == lowerStr email) with
  | none => (db, none, ⟨200, forgotSuccessMsg⟩)
  | some user =>
    if user.googleId.isSome && user.passwordHash.isNone then
      (db, none, ⟨200, forgotSuccessMsg⟩)
    else
      let plainToken := bytesToHex bytes
      let tokenHash := hash plainToken
      let marked := db.resets.map (fun r =>
        if r.userId == user.id && r.used == false then { r with used := true } else r)
      let newRec : PasswordResetRec :=
        ⟨newId, user.id, tokenHash, now + 15 * 60 * 1000, false⟩
      ({ db with resets := marked ++ [newRec] },
       some (email, plainToken),
       ⟨200, forgotSuccessMsg⟩)

/-- Result of the resetPassword handler, keyed to its response sites:
`invalidToken` is 400 with the generic invalid-or-expired message,
`userNotFound` is 400 "User not found", `success` is 200. -/
inductive RPResult where
  | invalidToken
  | userNotFound
  | success
deriving Repr, DecidableEq

/-- The resetPassword handler (authController.ts lines 358-414), after
validation passed. `hashPw` models the bcrypt pre-save hook applied to the
new password. On success it updates the user password hash, marks the
found reset record used (by document id), and deletes every refresh token
of that user. -/
def resetPassword (hash hashPw : String → String) (db : AuthDB)
    (token password : String) (now : Nat) : AuthDB × RPResult :=
  match verifyReset hash db.resets token now with
  | none => (db, .invalidToken)
  | some rec =>
    match db.users.find? (fun u => u.id == rec.userId) with
    | none => (db, .userNotFound)
    | some user =>
      let users := db.users.map (fun v =>
        if v.id == user.id then { v with passwordHash := some (hashPw password) } else v)
      let resets := db.resets.map (fun r =>
        if r.id == rec.id then { r with used := true } else r)
      let refreshTokens := db.refreshTokens.filter (fun rt => rt.userId != user.id)
      (⟨users, resets, refreshTokens⟩, .success)

/-- Result of the refreshAccessToken handler: `ok` carries only the newly
generated access token (the success body is `{ accessToken }`); `err`
carries the status and error message of the failure response site. -/
inductive RefreshResult where
  | ok (accessToken : String)
  | err (status : Nat) (msg : String)
deriving Repr, DecidableEq

/-- The refreshAccessToken handler (authController.ts lines 148-196).
`body` is the `refreshToken` field of the request body; `jwtVerify` models
`verifyRefreshToken`, returning `some payload.userId` on a valid signature
and `none` when it throws (the catch block answers 401); `genAccess`
models `generateAccessToken`. An expired stored row is deleted (by id)
and answered 401; a missing user row is answered 404. -/
def refreshAccessToken (db : AuthDB) (body : Option String)
    (jwtVerify : String → Option Nat) (genAccess : UserRec → String)
    (now : Nat) : AuthDB × RefreshResult :=
  match body with
  | none => (db, .err 400 "Refresh token required")
  | some rt =>
    match jwtVerify rt with
    | none => (db, .err 401 "Invalid refresh token")
    | some uid =>
      match db.refreshTokens.find? (fun r => r.token == rt && r.userId == uid) with
      | none => (db, .err 401 "Invalid refresh token")
      | some stored =>
        if stored.expiresAt < now then
          ({ db with refreshTokens := db.refreshTokens.filter (fun r => r.id != stored.id) },
           .err 401 "Refresh token expired")
        else
          match db.users.find? (fun u => u.id == uid) with
          | none => (db, .err 404 "User not found")
          | some user => (db, .ok (genAccess user))

/-- Result of the login handler: `ok` carries the user id and the two
issued tokens; `err` carries status and error message. -/
inductive LoginResult where
  | ok (userId : Nat) (accessToken refreshToken : String)
  | err (status : Nat) (error : String)
deriving Repr, DecidableEq

/-- The login handler (authController.ts lines 87-142), after validation.
`checkPw` models `user.comparePassword` applied to the stored nullable
password hash. Both the no-such-user and the wrong-password branches
answer 401 with the same body. On success a refresh-token row with a
7-day expiry is stored. -/
def login (checkPw : Option String → String → Bool) (db : AuthDB)
    (email password : String) (genAccess genRefresh : UserRec → String)
    (newRtId now : Nat) : AuthDB × LoginResult :=
  match db.users.find? (fun u => u.email == email) with
  | none => (db, .err 401 "Invalid credentials")
  | some user =>
    if checkPw user.passwordHash password then
      let rt := genRefresh user
      ({ db with refreshTokens :=
          db.refreshTokens ++ [⟨newRtId, user.id, rt, now + 7 * 24 * 60 * 60 * 1000⟩] },
       .ok user.id (genAccess user) rt)
    else
      (db, .err 401 "Invalid credentials")

/-- Response of the verifyResetToken handler: 400 with
"Invalid token format", 400 with "Invalid or expired reset token", or
200 `{ valid: true }`. -/
inductive VerifyTokenResp where
  | formatError
  | invalidToken
  | valid
deriving Repr, DecidableEq

/-- The verifyResetToken handler (authController.ts lines 420-455). The
guard is `!token || token.length !== 64` — a pure length check (the empty
string is subsumed by length 0 ≠ 64). The Bool component records whether
a storage lookup was performed. -/
def verifyResetToken (hash : String → String) (resets : List PasswordResetRec)
    (token : String) (now : Nat) : Bool × VerifyTokenResp :=
  if token.length ≠ 64 then
    (false, .formatError)
  else
    match verifyReset hash resets token now with
    | none => (true, .invalidToken)
    | some _ => (true, .valid)

/-- The validateResetPassword chain (middleware/validators.ts lines
141-161): token non-empty of length exactly 64, password non-empty of
length at least 8, confirmPassword non-empty and equal to password. -/
def validateResetPasswordOk (token password confirmPassword : String) : Bool :=
  !token.isEmpty && token.length == 64 &&
  !password.isEmpty && 8 ≤ password.length &&
  !confirmPassword.isEmpty && confirmPassword == password

/-- Result of the full reset-password route: a 400 validation error from
the validator chain, or the handler result. -/
inductive RPRouteResult where
  | validationError
  | handler (r : RPResult)
deriving Repr, DecidableEq

/-- The reset-password route (authRoutes.ts line 33): validateResetPassword
runs first and the handler rejects on `validationResult` failure before
touching storage; otherwise the resetPassword handler runs. The Bool
component records whether a storage lookup was performed. -/
def resetPasswordRoute (hash hashPw : String → String) (db : AuthDB)
    (token password confirmPassword : String) (now : Nat) :
    Bool × AuthDB × RPRouteResult :=
  if validateResetPasswordOk token password confirmPassword then
    let r := resetPassword hash hashPw db token password now
    (true, r.1, .handler r.2)
  else
    (false, db, .validationError)

/-- An entry of the in-memory rate-limit store
(middleware/rateLimiter.ts lines 3-6). -/
structure RateLimitEntry where
  count : Nat
  resetTime : Nat
deriving Repr, DecidableEq

/-- The observable outcome of one rate-limiter decision: whether the call
was admitted, the three X-RateLimit headers, and the Retry-After value on
a 429. -/
structure RLDecision where
  admitted : Bool
  limit : Nat
  remaining : Nat
  reset : Nat
  retryAfter : Option Nat
deriving Repr, DecidableEq

/-- Ceiling division on Nat, modelling `Math.ceil(a / b)` for nonnegative
integers. -/
def ceilDiv (a b : Nat) : Nat := (a + b - 1) / b

/-- One call of the middleware produced by createRateLimiter
(middleware/rateLimiter.ts lines 39-82) for a fixed key: given the stored
entry for the key (`none` when absent) and `now = Date.now()`, produce the
new stored entry and the decision. The reset branch runs only when there
is no entry or `entry.resetTime < now` (strict); otherwise the count is
incremented and the call is rejected iff `count > maxRequests`.
`remaining` uses Nat subtraction, matching `maxRequests - 1` and
`Math.max(0, maxRequests - entry.count)` for the configured limiters
(maxRequests ≥ 1). -/
def rateLimitStep (windowMs maxRequests : Nat) (entry : Option RateLimitEntry)
    (now : Nat) : RateLimitEntry × RLDecision :=
  match entry with
  | none =>
    (⟨1, now + windowMs⟩, ⟨true, maxRequests, maxRequests - 1, now + windowMs, none⟩)
  | some e =>
    if e.resetTime < now then
      (⟨1, now + windowMs⟩, ⟨true, maxRequests, maxRequests - 1, now + windowMs, none⟩)
    else
      let c := e.count + 1
      if maxRequests < c then
        (⟨c, e.resetTime⟩,
         ⟨false, maxRequests, maxRequests - c, e.resetTime,
          some (ceilDiv (e.resetTime - now) 1000)⟩)
      else
        (⟨c, e.resetTime⟩, ⟨true, maxRequests, maxRequests - c, e.resetTime, none⟩)

/-- Modelled from the claim text (not the source): the admission rule of
claim C7, whose reset condition is `now >= entry.resetTime` — so the
boundary instant `now = resetTime` starts a fresh window and admits. Kept
separate from `rateLimitStep` for comparison. -/
def rateLimitStepClaim (windowMs maxRequests : Nat) (entry : Option RateLimitEntry)
    (now : Nat) : RateLimitEntry × RLDecision :=
  match entry with
  | none =>
    (⟨1, now + windowMs⟩, ⟨true, maxRequests, maxRequests - 1, now + windowMs, none⟩)
  | some e =>
    if e.resetTime ≤ now then
      (⟨1, now + windowMs⟩, ⟨true, maxRequests, maxRequests - 1, now + windowMs, none⟩)
    else
      let c := e.count + 1
      if maxRequests < c then
        (⟨c, e.resetTime⟩,
         ⟨false, maxRequests, maxRequests - c, e.resetTime,
          some (ceilDiv (e.resetTime - now) 1000)⟩)
      else
        (⟨c, e.resetTime⟩, ⟨true, maxRequests, maxRequests - c, e.resetTime, none⟩)

/-- Number of reset records of a user that are unused. -/
def countUnusedResets (resets : List PasswordResetRec) (uid : Nat) : Nat :=
  (resets.filter (fun r => r.userId == uid && r.used == false)).length

/-- Number of reset records of a user that are unused and unexpired at a
given instant. -/
def countActiveResets (resets : List PasswordResetRec) (uid now : Nat) : Nat :=
  (resets.filter (fun r =>
    r.userId == uid && r.used == false && decide (now < r.expiresAt))).length

/-- Inputs of one forgot-password call that vary per call: the random
bytes, the fresh document id, the delivery outcome, and the call time. -/
structure ForgotCall where
  bytes : List Nat
  newId : Nat
  deliveryOk : Bool
  now : Nat
deriving Repr, DecidableEq

/-- The plaintext token a forgot-password call issues. -/
def ForgotCall.tok (c : ForgotCall) : String := bytesToHex c.bytes

/-- Database effect of one forgot-password call for a fixed email. -/
def forgotStep (hash : String → String) (email : String) (db : AuthDB)
    (c : ForgotCall) : AuthDB :=
  (forgotPassword hash db email c.bytes c.newId c.deliveryOk c.now).1

/-- Database effect of a sequence of forgot-password calls for one email. -/
def forgotSeq (hash : String → String) (db : AuthDB) (email : String)
    (calls : List ForgotCall) : AuthDB :=
  calls.foldl (forgotStep hash email) db

/-- Database effect of a sequence of in-window rate-limiter calls: fold the
step over a list of call instants. -/
def rlIter (windowMs maxRequests : Nat) (e : RateLimitEntry)
    (nows : List Nat) : RateLimitEntry :=
  nows.foldl (fun acc t => (rateLimitStep windowMs maxRequests (some acc) t).1) e

/-! ### Shared helper lemmas -/

/-- Neither branch of the in-window case of the rate limiter changes the
stored entry shape: the count is incremented and the reset time kept. -/
theorem rateLimitStep_inWindow (w m : Nat) (e : RateLimitEntry) (now : Nat)
    (h : ¬ e.resetTime < now) :
    (rateLimitStep w m (some e) now).1 = ⟨e.count + 1, e.resetTime⟩ := by
  simp only [rateLimitStep]
  rw [if_neg h]
  split <;> rfl

/-- In-window admission is decided by the incremented count against the
maximum. -/
theorem rateLimitStep_inWindow_admitted (w m : Nat) (e : RateLimitEntry) (now : Nat)
    (h : ¬ e.resetTime < now) :
    (rateLimitStep w m (some e) now).2.admitted = decide (e.count + 1 ≤ m) := by
  simp only [rateLimitStep]
  rw [if_neg h]
  split
  · next hlt => simp [Nat.not_le.mpr hlt]
  · next hge => simp [Nat.not_lt.mp hge]

/-- Folding in-window calls leaves the reset time fixed and adds one to
the count per call. -/
theorem rlIter_inWindow (w m : Nat) (e : RateLimitEntry) (nows : List Nat)
    (h : ∀ t ∈ nows, t < e.resetTime) :
    (rlIter w m e nows).resetTime = e.resetTime ∧
    (rlIter w m e nows).count = e.count + nows.length := by
  induction nows generalizing e with
  | nil => simp [rlIter]
  | cons t ts ih =>
    have ht : t < e.resetTime := h t (by simp)
    have hstep : (rateLimitStep w m (some e) t).1 = ⟨e.count + 1, e.resetTime⟩ :=
      rateLimitStep_inWindow w m e t (Nat.not_lt.mpr (Nat.le_of_lt ht))
    have hfold : rlIter w m e (t :: ts) = rlIter w m ⟨e.count + 1, e.resetTime⟩ ts := by
      simp only [rlIter, List.foldl_cons, hstep]
    rw [hfold]
    have hrest : ∀ s ∈ ts, s < (RateLimitEntry.mk (e.count + 1) e.resetTime).resetTime :=
      fun s hs => h s (by simp [hs])
    have hih := ih ⟨e.count + 1, e.resetTime⟩ hrest
    refine ⟨hih.1, ?_⟩
    rw [hih.2, List.length_cons]
    show e.count + 1 + ts.length = e.count + (ts.length + 1)
    omega

/-! ### Claim C4 -/

/-- C4: for every forgot-password request past validation and the rate
limiter, the response is the same 200 with the same success message,
regardless of whether the email belongs to a user, to a federated-only
user, or to nobody, and regardless of the email-delivery outcome. -/
theorem c4_forgot_password_response_invariance
    (hash : String → String) (db : AuthDB) (email : String) (bytes : List Nat)
    (newId : Nat) (deliveryOk : Bool) (now : Nat) :
    (forgotPassword hash db email bytes newId deliveryOk now).2.2 =
      ⟨200, forgotSuccessMsg⟩ := by
  unfold forgotPassword
  cases db.users.find? (fun u => u.email == lowerStr email) with
  | none => rfl
  | some user =>
    dsimp only
    split <;> rfl

/-! ### Claim C5 -/

/-- C5: login with an email matching no user and login with an existing
email plus a wrong password both answer 401 with the identical generic
invalid-credentials body, so the two branches are indistinguishable. -/
theorem c5_login_response_uniformity
    (checkPw : Option String → String → Bool)
    (db1 db2 : AuthDB) (e1 p1 e2 p2 : String)
    (gA1 gR1 gA2 gR2 : UserRec → String) (i1 i2 n1 n2 : Nat) (u : UserRec)
    (h1 : db1.users.find? (fun v => v.email == e1) = none)
    (h2 : db2.users.find? (fun v => v.email == e2) = some u)
    (h3 : checkPw u.passwordHash p2 = false) :
    (login checkPw db1 e1 p1 gA1 gR1 i1 n1).2 = .err 401 "Invalid credentials" ∧
    (login checkPw db2 e2 p2 gA2 gR2 i2 n2).2 = .err 401 "Invalid credentials" ∧
    (login checkPw db1 e1 p1 gA1 gR1 i1 n1).2 =
      (login checkPw db2 e2 p2 gA2 gR2 i2 n2).2 := by
  have hl1 : (login checkPw db1 e1 p1 gA1 gR1 i1 n1).2 = .err 401 "Invalid credentials" := by
    unfold login
    rw [h1]
  have hl2 : (login checkPw db2 e2 p2 gA2 gR2 i2 n2).2 = .err 401 "Invalid credentials" := by
    unfold login
    rw [h2]
    dsimp only
    rw [h3]
    simp
  exact ⟨hl1, hl2, hl1.trans hl2.symm⟩

/-- Concrete instance of C5: an empty user store versus a store with one
user and an always-failing password check. -/
theorem c5_login_response_uniformity_witness :
    (login (fun _ _ => false) ⟨[], [], []⟩ "a@mictech.edu.in" "pw"
        (fun _ => "a") (fun _ => "r") 0 0).2 = .err 401 "Invalid credentials" ∧
    (login (fun _ _ => false) ⟨[⟨1, "b@mictech.edu.in", some "h", none, "B"⟩], [], []⟩
        "b@mictech.edu.in" "wrong" (fun _ => "a") (fun _ => "r") 0 0).2 =
      .err 401 "Invalid credentials" ∧
    (login (fun _ _ => false) ⟨[], [], []⟩ "a@mictech.edu.in" "pw"
        (fun _ => "a") (fun _ => "r") 0 0).2 =
      (login (fun _ _ => false) ⟨[⟨1, "b@mictech.edu.in", some "h", none, "B"⟩], [], []⟩
        "b@mictech.edu.in" "wrong" (fun _ => "a") (fun _ => "r") 0 0).2 :=
  c5_login_response_uniformity (fun _ _ => false)
    ⟨[], [], []⟩ ⟨[⟨1, "b@mictech.edu.in", some "h", none, "B"⟩], [], []⟩
    "a@mictech.edu.in" "pw" "b@mictech.edu.in" "wrong"
    (fun _ => "a") (fun _ => "r") (fun _ => "a") (fun _ => "r") 0 0 0 0
    ⟨1, "b@mictech.edu.in", some "h", none, "B"⟩
    (by decide) (by decide) rfl

/-! ### Claim C7 -/

/-- C7 counterexample: with `windowMs = 1000, maxRequests = 1`, the first
call at `now = 0` stores `resetTime = 1000`; a second call exactly at the
boundary instant `now = resetTime = 1000` is rejected by the code (the
reset branch requires `entry.resetTime < now`, strictly), while the rule
stated in the claim (reset when `now >= entry.resetTime`) would start a
fresh window and admit it. -/
theorem c7_rate_limiter_boundary_counterexample :
    (rateLimitStep 1000 1 none 0).1 = ⟨1, 1000⟩ ∧
    (rateLimitStep 1000 1 (some ⟨1, 1000⟩) 1000).2.admitted = false ∧
    (rateLimitStepClaim 1000 1 (some ⟨1, 1000⟩) 1000).2.admitted = true := by
  decide

/-- C7 amended: on the first call for a key, or when `now` is strictly
after `entry.resetTime`, the entry is reset to count 1 and
`resetTime = now + windowMs` and the call is admitted; otherwise (that is,
whenever `now <= entry.resetTime`, including the boundary instant) the
count is incremented and the call is admitted iff the incremented count is
at most `maxRequests`. -/
theorem c7_rate_limiter_step_amended (w m : Nat) (e : RateLimitEntry) (now : Nat) :
    rateLimitStep w m none now =
      (⟨1, now + w⟩, ⟨true, m, m - 1, now + w, none⟩) ∧
    (e.resetTime < now →
      rateLimitStep w m (some e) now =
        (⟨1, now + w⟩, ⟨true, m, m - 1, now + w, none⟩)) ∧
    (now ≤ e.resetTime →
      (rateLimitStep w m (some e) now).1 = ⟨e.count + 1, e.resetTime⟩ ∧
      (rateLimitStep w m (some e) now).2.admitted = decide (e.count + 1 ≤ m)) := by
  refine ⟨rfl, ?_, ?_⟩
  · intro h
    simp only [rateLimitStep]
    rw [if_pos h]
  · intro h
    exact ⟨rateLimitStep_inWindow w m e now (Nat.not_lt.mpr h),
           rateLimitStep_inWindow_admitted w m e now (Nat.not_lt.mpr h)⟩

/-- Concrete instance of C7 amended: a stale entry is reset and a
boundary-instant call is counted against the old window. -/
theorem c7_rate_limiter_step_amended_witness :
    ((4 : Nat) < 5 ∧
      rateLimitStep 1000 2 (some ⟨3, 4⟩) 5 =
        (⟨1, 1005⟩, ⟨true, 2, 1, 1005, none⟩)) ∧
    ((10 : Nat) ≤ 10 ∧
      (rateLimitStep 1000 2 (some ⟨1, 10⟩) 10).1 = ⟨2, 10⟩ ∧
      (rateLimitStep 1000 2 (some ⟨1, 10⟩) 10).2.admitted = decide ((1 : Nat) + 1 ≤ 2)) :=
  ⟨⟨by decide, (c7_rate_limiter_step_amended 1000 2 ⟨3, 4⟩ 5).2.1 (by decide)⟩,
   ⟨by decide, (c7_rate_limiter_step_amended 1000 2 ⟨1, 10⟩ 10).2.2 (by decide)⟩⟩

/-! ### Claim C10 -/

/-- C10: while a window is active (`now < entry.resetTime`), no call for
the key changes `resetTime` — admitted or rejected — and the count rises
by exactly one per call; a rejected call reports
`retryAfter = ceil((resetTime - now) / 1000)`, which never increases as
`now` advances toward the fixed window end; and folding any list of
in-window calls leaves `resetTime` fixed while the count grows by the
number of calls, unboundedly past `maxRequests`. -/
theorem c10_window_stability (w m : Nat) (e : RateLimitEntry) (now now2 : Nat)
    (h : now < e.resetTime) :
    (rateLimitStep w m (some e) now).1.resetTime = e.resetTime ∧
    (rateLimitStep w m (some e) now).1.count = e.count + 1 ∧
    (m < e.count + 1 →
      (rateLimitStep w m (some e) now).2.retryAfter =
        some (ceilDiv (e.resetTime - now) 1000)) ∧
    (now ≤ now2 →
      ceilDiv (e.resetTime - now2) 1000 ≤ ceilDiv (e.resetTime - now) 1000) ∧
    (∀ nows : List Nat, (∀ t ∈ nows, t < e.resetTime) →
      (rlIter w m e nows).resetTime = e.resetTime ∧
      (rlIter w m e nows).count = e.count + nows.length) := by
  have hnl : ¬ e.resetTime < now := Nat.not_lt.mpr (Nat.le_of_lt h)
  have h1 := rateLimitStep_inWindow w m e now hnl
  refine ⟨by rw [h1], by rw [h1], ?_, ?_, fun nows hn => rlIter_inWindow w m e nows hn⟩
  · intro hm
    simp only [rateLimitStep]
    rw [if_neg hnl]
    simp only [if_pos hm]
  · intro hle
    unfold ceilDiv
    have hsub : e.resetTime - now2 ≤ e.resetTime - now := Nat.sub_le_sub_left hle _
    exact Nat.div_le_div_right (by omega)

/-- Concrete instance of C10: a rejected in-window call (count already at
the limit) keeps the reset time, increments the count, and reports the
remaining seconds, and ten further in-window calls only grow the count. -/
theorem c10_window_stability_witness :
    (2500 : Nat) < 10000 ∧
    ((rateLimitStep 900000 3 (some ⟨3, 10000⟩) 2500).1.resetTime = 10000 ∧
     (rateLimitStep 900000 3 (some ⟨3, 10000⟩) 2500).1.count = 3 + 1 ∧
     ((3 : Nat) < 3 + 1 →
       (rateLimitStep 900000 3 (some ⟨3, 10000⟩) 2500).2.retryAfter =
         some (ceilDiv (10000 - 2500) 1000)) ∧
     ((2500 : Nat) ≤ 3000 →
       ceilDiv (10000 - 3000) 1000 ≤ ceilDiv (10000 - 2500) 1000) ∧
     (∀ nows : List Nat, (∀ t ∈ nows, t < 10000) →
       (rlIter 900000 3 ⟨3, 10000⟩ nows).resetTime = 10000 ∧
       (rlIter 900000 3 ⟨3, 10000⟩ nows).count = 3 + nows.length)) :=
  ⟨by decide, c10_window_stability 900000 3 ⟨3, 10000⟩ 2500 3000 (by decide)⟩

/-! ### Claim C9 -/

/-- Every outcome of the refresh flow: one of the four response sites, or
success carrying an access token generated for a stored user. The 404
site fires exactly when a stored, matching, unexpired token row exists
whose user record is absent. -/
theorem refreshAccessToken_outcomes (db : AuthDB) (body : Option String)
    (jwtVerify : String → Option Nat) (genAccess : UserRec → String) (now : Nat) :
    (refreshAccessToken db body jwtVerify genAccess now).2 = .err 400 "Refresh token required" ∨
    (refreshAccessToken db body jwtVerify genAccess now).2 = .err 401 "Invalid refresh token" ∨
    (refreshAccessToken db body jwtVerify genAccess now).2 = .err 401 "Refresh token expired" ∨
    ((refreshAccessToken db body jwtVerify genAccess now).2 = .err 404 "User not found" ∧
      ∃ rt uid stored, body = some rt ∧ jwtVerify rt = some uid ∧
        db.refreshTokens.find? (fun r => r.token == rt && r.userId == uid) = some stored ∧
        db.users.find? (fun u => u.id == uid) = none) ∨
    (∃ u, u ∈ db.users ∧
      (refreshAccessToken db body jwtVerify genAccess now).2 = .ok (genAccess u)) := by
  unfold refreshAccessToken
  cases body with
  | none => exact Or.inl rfl
  | some rt =>
    dsimp only
    cases hjv : jwtVerify rt with
    | none => exact Or.inr (Or.inl rfl)
    | some uid =>
      dsimp only
      cases hfind : db.refreshTokens.find? (fun r => r.token == rt && r.userId == uid) with
      | none => exact Or.inr (Or.inl rfl)
      | some stored =>
        dsimp only
        by_cases hexp : stored.expiresAt < now
        · rw [if_pos hexp]
          exact Or.inr (Or.inr (Or.inl rfl))
        · rw [if_neg hexp]
          cases hu : db.users.find? (fun u => u.id == uid) with
          | none =>
            exact Or.inr (Or.inr (Or.inr (Or.inl
              ⟨rfl, rt, uid, stored, rfl, hjv, hfind, hu⟩)))
          | some user =>
            exact Or.inr (Or.inr (Or.inr (Or.inr
              ⟨user, List.mem_of_find?_eq_some hu, rfl⟩)))

/-- C9 counterexample: a stored, unexpired refresh-token row whose user
record is absent makes the refresh flow answer 404, a failure status the
claim does not allow. -/
theorem c9_refresh_404_counterexample :
    (refreshAccessToken ⟨[], [], [⟨42, 7, "tkn", 999999⟩]⟩ (some "tkn")
        (fun s => if s == "tkn" then some 7 else none) (fun _ => "acc") 0).2 =
      .err 404 "User not found" := by
  decide

/-- C9 amended: every failure of the refresh flow has status 400, 401 or
404; under the invariant that every stored refresh-token row references an
existing user (which all in-scope flows create and none destroys), the
failure statuses are exactly 400 and 401; and a success carries only an
access token generated for a stored user. -/
theorem c9_refresh_failure_statuses (db : AuthDB) (body : Option String)
    (jwtVerify : String → Option Nat) (genAccess : UserRec → String) (now : Nat) :
    (∀ st msg, (refreshAccessToken db body jwtVerify genAccess now).2 = .err st msg →
      st = 400 ∨ st = 401 ∨ st = 404) ∧
    ((∀ rt ∈ db.refreshTokens, ∃ u ∈ db.users, u.id = rt.userId) →
      ∀ st msg, (refreshAccessToken db body jwtVerify genAccess now).2 = .err st msg →
        st = 400 ∨ st = 401) ∧
    (∀ a, (refreshAccessToken db body jwtVerify genAccess now).2 = .ok a →
      ∃ u, u ∈ db.users ∧ a = genAccess u) := by
  have hout := refreshAccessToken_outcomes db body jwtVerify genAccess now
  refine ⟨?_, ?_, ?_⟩
  · intro st msg hres
    rcases hout with h | h | h | ⟨h, _⟩ | ⟨u, _, h⟩ <;> rw [h] at hres <;>
      first
        | (cases hres; omega)
        | exact absurd hres (by simp)
  · intro hinv st msg hres
    rcases hout with h | h | h | ⟨h, rt, uid, stored, _, _, hfind, hu⟩ | ⟨u, _, h⟩
    · rw [h] at hres; cases hres; omega
    · rw [h] at hres; cases hres; omega
    · rw [h] at hres; cases hres; omega
    · exfalso
      have hmem : stored ∈ db.refreshTokens := List.mem_of_find?_eq_some hfind
      have hpred := List.find?_some hfind
      have huid : stored.userId = uid := by
        simp only [Bool.and_eq_true, beq_iff_eq] at hpred
        exact hpred.2
      rcases hinv stored hmem with ⟨u, humem, hueq⟩
      have hnone := List.find?_eq_none.mp hu u humem
      simp only [beq_iff_eq] at hnone
      exact hnone (by rw [hueq, huid])
    · rw [h] at hres; exact absurd hres (by simp)
  · intro a hres
    rcases hout with h | h | h | ⟨h, _⟩ | ⟨u, humem, h⟩ <;> rw [h] at hres
    · exact absurd hres (by simp)
    · exact absurd hres (by simp)
    · exact absurd hres (by simp)
    · exact absurd hres (by simp)
    · cases hres
      exact ⟨u, humem, rfl⟩

/-- Concrete instance of C9 amended: with one user and one matching,
unexpired token row, the invariant holds and a refresh succeeds with an
access token for a stored user. -/
theorem c9_refresh_failure_statuses_witness :
    ((∀ rt ∈ (AuthDB.mk [⟨7, "a@mictech.edu.in", some "h", none, "A"⟩] []
          [⟨42, 7, "tkn", 999999⟩]).refreshTokens,
        ∃ u ∈ (AuthDB.mk [⟨7, "a@mictech.edu.in", some "h", none, "A"⟩] []
          [⟨42, 7, "tkn", 999999⟩]).users, u.id = rt.userId) →
      ∀ st msg, (refreshAccessToken
          ⟨[⟨7, "a@mictech.edu.in", some "h", none, "A"⟩], [], [⟨42, 7, "tkn", 999999⟩]⟩
          (some "bad") (fun s => if s == "tkn" then some 7 else none)
          (fun _ => "acc") 0).2 = .err st msg →
        st = 400 ∨ st = 401) ∧
    ((∀ rt ∈ (AuthDB.mk [⟨7, "a@mictech.edu.in", some "h", none, "A"⟩] []
          [⟨42, 7, "tkn", 999999⟩]).refreshTokens,
        ∃ u ∈ (AuthDB.mk [⟨7, "a@mictech.edu.in", some "h", none, "A"⟩] []
          [⟨42, 7, "tkn", 999999⟩]).users, u.id = rt.userId) ∧
      (401 : Nat) = 400 ∨ (401 : Nat) = 401) :=
  ⟨(c9_refresh_failure_statuses
      ⟨[⟨7, "a@mictech.edu.in", some "h", none, "A"⟩], [], [⟨42, 7, "tkn", 999999⟩]⟩
      (some "bad") (fun s => if s == "tkn" then some 7 else none)
      (fun _ => "acc") 0).2.1,
   Or.inr rfl⟩

/-! ### Claim C8 -/

/-- C8 counterexample: a 64-character token made of `z` characters is not
hex, yet the verify-reset-token handler does not reject it with the format
error — it hashes it and performs a storage lookup (first component
`true`), answering with the generic invalid-token error; likewise the
reset-password route passes validation and performs a lookup. -/
theorem c8_nonhex_token_counterexample :
    isHexStr (String.mk (List.replicate 64 'z')) = false ∧
    verifyResetToken (fun s => s) [] (String.mk (List.replicate 64 'z')) 0 =
      (true, .invalidToken) ∧
    resetPasswordRoute (fun s => s) (fun s => s) ⟨[], [], []⟩
      (String.mk (List.replicate 64 'z')) "password1" "password1" 0 =
      (true, ⟨[], [], []⟩, .handler .invalidToken) := by
  decide

/-- C8 amended: both the verify-reset-token handler and the reset-password
route reject a token whose length differs from 64 characters before any
hashing or storage lookup (the lookup flag stays `false`); hex-ness of the
characters is not checked. -/
theorem c8_format_check_amended (hash hashPw : String → String) (db : AuthDB)
    (token password confirmPassword : String) (now : Nat)
    (h : token.length ≠ 64) :
    verifyResetToken hash db.resets token now = (false, .formatError) ∧
    resetPasswordRoute hash hashPw db token password confirmPassword now =
      (false, db, .validationError) := by
  constructor
  · unfold verifyResetToken
    rw [if_pos h]
  · have hb : (token.length == 64) = false := beq_eq_false_iff_ne.mpr h
    have hv : validateResetPasswordOk token password confirmPassword = false := by
      simp [validateResetPasswordOk, hb]
    unfold resetPasswordRoute
    rw [hv]
    simp

/-- Concrete instance of C8 amended: a 3-character token is rejected on
both paths with no lookup. -/
theorem c8_format_check_amended_witness :
    "abc".length ≠ 64 ∧
    (verifyResetToken (fun s => s) [] "abc" 0 = (false, .formatError) ∧
     resetPasswordRoute (fun s => s) (fun s => s) ⟨[], [], []⟩
       "abc" "password1" "password1" 0 = (false, ⟨[], [], []⟩, .validationError)) :=
  ⟨by decide,
   c8_format_check_amended (fun s => s) (fun s => s) ⟨[], [], []⟩
     "abc" "password1" "password1" 0 (by decide)⟩

/-! ### Claim C6 -/

/-- One byte encodes to two characters. -/
theorem byteToHex_length (b : Nat) : (byteToHex b).length = 2 := rfl

/-- Hex encoding doubles the length: 32 bytes give 64 characters. -/
theorem bytesToHex_length (bs : List Nat) : (bytesToHex bs).length = 2 * bs.length := by
  induction bs with
  | nil => rfl
  | cons b t ih =>
    show ((byteToHex b).data ++ (bytesToHex t).data).length = 2 * (b :: t).length
    rw [List.length_append, List.length_cons]
    have hb : (byteToHex b).data.length = 2 := rfl
    have ht : (bytesToHex t).data.length = 2 * t.length := ih
    omega

/-- The sixteen hex digit values map to lowercase hex characters. -/
theorem hexDigit_isLowerHex (n : Nat) (h : n < 16) :
    isLowerHexChar (hexDigit n) = true := by
  interval_cases n <;> decide

/-- A byte below 256 encodes to lowercase hex characters only. -/
theorem byteToHex_isHex (b : Nat) (h : b < 256) :
    isHexStr (byteToHex b) = true := by
  have h1 : b / 16 < 16 := Nat.div_lt_of_lt_mul (by omega)
  have h2 : b % 16 < 16 := Nat.mod_lt _ (by omega)
  simp [isHexStr, byteToHex, hexDigit_isLowerHex _ h1, hexDigit_isLowerHex _ h2]

/-- A byte sequence of bytes below 256 encodes to lowercase hex only. -/
theorem bytesToHex_isHex (bs : List Nat) (h : ∀ b ∈ bs, b < 256) :
    isHexStr (bytesToHex bs) = true := by
  induction bs with
  | nil => rfl
  | cons b t ih =>
    have hb := byteToHex_isHex b (h b (by simp))
    have ht := ih (fun x hx => h x (by simp [hx]))
    show ((byteToHex b).data ++ (bytesToHex t).data).all isLowerHexChar = true
    rw [List.all_append]
    exact by simp [isHexStr] at hb ht ⊢; exact ⟨hb, ht⟩

/-- C6: issuing a reset token for a password-capable user hex-encodes the
32 random bytes into a 64-character lowercase-hex plaintext, persists a
new record holding the SHA-256 digest of the plaintext (the plaintext
itself appears in no persisted record), with expiry issuance time + 15
minutes and `used = false`, and hands the plaintext only to the email
side channel. -/
theorem c6_reset_token_issuance
    (hash : String → String) (db : AuthDB) (email : String) (bytes : List Nat)
    (newId : Nat) (deliveryOk : Bool) (now : Nat) (u : UserRec)
    (hu : db.users.find? (fun v => v.email == lowerStr email) = some u)
    (hcap : (u.googleId.isSome && u.passwordHash.isNone) = false)
    (hlen : bytes.length = 32) (hbytes : ∀ b ∈ bytes, b < 256)
    (hneq : hash (bytesToHex bytes) ≠ bytesToHex bytes)
    (hfresh : ∀ r ∈ db.resets, r.tokenHash ≠ bytesToHex bytes) :
    (bytesToHex bytes).length = 64 ∧
    isHexStr (bytesToHex bytes) = true ∧
    (forgotPassword hash db email bytes newId deliveryOk now).1.resets.getLast? =
      some ⟨newId, u.id, hash (bytesToHex bytes), now + 15 * 60 * 1000, false⟩ ∧
    (∀ r ∈ (forgotPassword hash db email bytes newId deliveryOk now).1.resets,
      r.tokenHash ≠ bytesToHex bytes) ∧
    (forgotPassword hash db email bytes newId deliveryOk now).2.1 =
      some (email, bytesToHex bytes) := by
  have hred : forgotPassword hash db email bytes newId deliveryOk now =
      ({ db with resets := db.resets.map (fun r =>
            if r.userId == u.id && r.used == false then { r with used := true } else r)
          ++ [⟨newId, u.id, hash (bytesToHex bytes), now + 15 * 60 * 1000, false⟩] },
       some (email, bytesToHex bytes), ⟨200, forgotSuccessMsg⟩) := by
    unfold forgotPassword
    rw [hu]
    dsimp only
    rw [hcap]
    simp
  refine ⟨?_, bytesToHex_isHex bytes hbytes, ?_, ?_, ?_⟩
  · rw [bytesToHex_length, hlen]
  · rw [hred]
    exact List.getLast?_concat _
  · rw [hred]
    intro r hr
    rcases List.mem_append.mp hr with hm | hm
    · rcases List.mem_map.mp hm with ⟨r0, hr0, rfl⟩
      by_cases hc : (r0.userId == u.id && r0.used == false) = true
      · rw [if_pos hc]; exact hfresh r0 hr0
      · rw [if_neg hc]; exact hfresh r0 hr0
    · have hr1 : r = ⟨newId, u.id, hash (bytesToHex bytes), now + 15 * 60 * 1000, false⟩ := by
        simpa using hm
      rw [hr1]
      exact hneq
  · rw [hred]

/-- Concrete instance of C6: a user store with one password-capable user,
32 zero bytes of randomness, and a digest function that never fixes its
input. -/
theorem c6_reset_token_issuance_witness :
    (List.replicate 32 0).length = 32 ∧
    ((bytesToHex (List.replicate 32 0)).length = 64 ∧
     isHexStr (bytesToHex (List.replicate 32 0)) = true ∧
     (forgotPassword (fun s => "x" ++ s)
        ⟨[⟨1, "a@mictech.edu.in", some "h", none, "A"⟩], [], []⟩
        "a@mictech.edu.in" (List.replicate 32 0) 5 true 1000).1.resets.getLast? =
       some ⟨5, 1, "x" ++ bytesToHex (List.replicate 32 0), 1000 + 15 * 60 * 1000, false⟩ ∧
     (∀ r ∈ (forgotPassword (fun s => "x" ++ s)
        ⟨[⟨1, "a@mictech.edu.in", some "h", none, "A"⟩], [], []⟩
        "a@mictech.edu.in" (List.replicate 32 0) 5 true 1000).1.resets,
       r.tokenHash ≠ bytesToHex (List.replicate 32 0)) ∧
     (forgotPassword (fun s => "x" ++ s)
        ⟨[⟨1, "a@mictech.edu.in", some "h", none, "A"⟩], [], []⟩
        "a@mictech.edu.in" (List.replicate 32 0) 5 true 1000).2.1 =
       some ("a@mictech.edu.in", bytesToHex (List.replicate 32 0))) :=
  ⟨by decide,
   c6_reset_token_issuance (fun s => "x" ++ s)
     ⟨[⟨1, "a@mictech.edu.in", some "h", none, "A"⟩], [], []⟩
     "a@mictech.edu.in" (List.replicate 32 0) 5 true 1000
     ⟨1, "a@mictech.edu.in", some "h", none, "A"⟩
     (by decide) (by decide) (by decide) (by decide) (by decide)
     (by intro r hr; simp at hr)⟩

/-! ### Claim C2 -/

/-- A successful reset-token lookup returns a stored record matching the
digest, unused and strictly unexpired. -/
theorem verifyReset_some (hash : String → String) (resets : List PasswordResetRec)
    (t : String) (now : Nat) (r : PasswordResetRec)
    (h : verifyReset hash resets t now = some r) :
    r ∈ resets ∧ r.tokenHash = hash t ∧ r.used = false ∧ now < r.expiresAt := by
  unfold verifyReset at h
  have hmem := List.mem_of_find?_eq_some h
  have hpred := List.find?_some h
  simp only [Bool.and_eq_true, beq_iff_eq, decide_eq_true_eq] at hpred
  exact ⟨hmem, hpred.1.1, hpred.1.2, hpred.2⟩

/-- If every record carrying the digest is already used, the lookup fails
at every instant. -/
theorem verifyReset_none_of (hash : String → String) (resets : List PasswordResetRec)
    (t : String) (now : Nat)
    (h : ∀ r ∈ resets, r.tokenHash = hash t → r.used = true) :
    verifyReset hash resets t now = none := by
  unfold verifyReset
  rw [List.find?_eq_none]
  intro r hr
  simp only [Bool.and_eq_true, beq_iff_eq, decide_eq_true_eq]
  rintro ⟨⟨h1, h2⟩, _⟩
  have := h r hr h1
  rw [h2] at this
  exact absurd this (by decide)

/-- In a list of length at most one, any two members coincide. -/
theorem mem_eq_of_length_le_one {α : Type} {l : List α} (h : l.length ≤ 1)
    {a b : α} (ha : a ∈ l) (hb : b ∈ l) : a = b := by
  cases l with
  | nil => cases ha
  | cons x xs =>
    cases xs with
    | nil =>
      rw [List.mem_singleton.mp ha, List.mem_singleton.mp hb]
    | cons y ys => simp [List.length_cons] at h

/-- C2: reset-token verification succeeds only for a stored record with
`used = false` and expiry strictly in the future; and when reset-password
succeeds, re-submitting the same plaintext token afterwards (at any
instant) fails with the generic invalid-token error and leaves the whole
database — the user password included — unchanged by the second call. The
hypothesis says the digest identifies at most one stored record, which
SHA-256 collision-freeness gives for distinct random tokens. -/
theorem c2_token_one_shot
    (hash hashPw : String → String) (db : AuthDB) (t p : String) (now : Nat)
    (huniq : (db.resets.filter (fun r => r.tokenHash == hash t)).length ≤ 1) :
    (∀ r, verifyReset hash db.resets t now = some r →
      r.used = false ∧ now < r.expiresAt ∧ r.tokenHash = hash t) ∧
    (∀ db2, resetPassword hash hashPw db t p now = (db2, .success) →
      ∀ p2 now2, resetPassword hash hashPw db2 t p2 now2 = (db2, .invalidToken)) := by
  constructor
  · intro r hr
    have h := verifyReset_some hash db.resets t now r hr
    exact ⟨h.2.2.1, h.2.2.2, h.2.1⟩
  · intro db2 hsucc p2 now2
    unfold resetPassword at hsucc
    cases hver : verifyReset hash db.resets t now with
    | none => rw [hver] at hsucc; simp at hsucc
    | some rec =>
      rw [hver] at hsucc
      dsimp only at hsucc
      cases hu : db.users.find? (fun u => u.id == rec.userId) with
      | none => rw [hu] at hsucc; simp at hsucc
      | some user =>
        rw [hu] at hsucc
        dsimp only at hsucc
        have hdb2 := congrArg Prod.fst hsucc
        dsimp only at hdb2
        subst hdb2
        have hrec := verifyReset_some hash db.resets t now rec hver
        have hrecmem : rec ∈ db.resets.filter (fun r => r.tokenHash == hash t) :=
          List.mem_filter.mpr ⟨hrec.1, by simp [hrec.2.1]⟩
        have hnone : verifyReset hash (db.resets.map (fun r =>
            if r.id == rec.id then { r with used := true } else r)) t now2 = none := by
          apply verifyReset_none_of
          intro r2 hr2 hh
          rcases List.mem_map.mp hr2 with ⟨r0, hr0, rfl⟩
          by_cases hc : (r0.id == rec.id) = true
          · rw [if_pos hc]
          · rw [if_neg hc] at hh ⊢
            have hr0mem : r0 ∈ db.resets.filter (fun r => r.tokenHash == hash t) :=
              List.mem_filter.mpr ⟨hr0, by simp [hh]⟩
            have : r0 = rec := mem_eq_of_length_le_one huniq hr0mem hrecmem
            rw [this] at hc
            exact absurd (by simp) hc
        unfold resetPassword
        dsimp only
        rw [hnone]

/-- Concrete instance of C2: a store holding one unused, unexpired reset
record whose digest matches the submitted token; after the successful
reset, the same token is rejected. -/
theorem c2_token_one_shot_witness :
    (((AuthDB.mk [⟨1, "a@mictech.edu.in", some "h", none, "A"⟩]
        [⟨10, 1, "tok", 1000, false⟩] []).resets.filter
          (fun r => r.tokenHash == (fun s => s) "tok")).length ≤ 1) ∧
    ((∀ r, verifyReset (fun s => s)
        (AuthDB.mk [⟨1, "a@mictech.edu.in", some "h", none, "A"⟩]
          [⟨10, 1, "tok", 1000, false⟩] []).resets "tok" 0 = some r →
        r.used = false ∧ 0 < r.expiresAt ∧ r.tokenHash = (fun s => s) "tok") ∧
     (∀ db2, resetPassword (fun s => s) (fun s => s)
        ⟨[⟨1, "a@mictech.edu.in", some "h", none, "A"⟩],
          [⟨10, 1, "tok", 1000, false⟩], []⟩ "tok" "newpassword" 0 =
          (db2, .success) →
       ∀ p2 now2, resetPassword (fun s => s) (fun s => s) db2 "tok" p2 now2 =
         (db2, .invalidToken))) :=
  ⟨by decide,
   c2_token_one_shot (fun s => s) (fun s => s)
     ⟨[⟨1, "a@mictech.edu.in", some "h", none, "A"⟩],
       [⟨10, 1, "tok", 1000, false⟩], []⟩ "tok" "newpassword" 0 (by decide)⟩

/-! ### Claim C3 -/

/-- C3: a successful reset-password call leaves no refresh-token row for
the reset user in the store, so any refresh token whose verified payload
names that user — whenever it was issued, on whatever device — fails the
refresh flow with the 401 invalid-refresh-token response. -/
theorem c3_reset_revokes_sessions
    (hash hashPw : String → String) (db : AuthDB) (t p : String) (now : Nat)
    (db2 : AuthDB) (rec : PasswordResetRec) (u : UserRec)
    (hver : verifyReset hash db.resets t now = some rec)
    (hu : db.users.find? (fun v => v.id == rec.userId) = some u)
    (hsucc : resetPassword hash hashPw db t p now = (db2, .success)) :
    (∀ rt ∈ db2.refreshTokens, rt.userId ≠ u.id) ∧
    (∀ tok (jwtVerify : String → Option Nat) (genAccess : UserRec → String) (now2 : Nat),
      jwtVerify tok = some u.id →
      refreshAccessToken db2 (some tok) jwtVerify genAccess now2 =
        (db2, .err 401 "Invalid refresh token")) := by
  unfold resetPassword at hsucc
  rw [hver] at hsucc
  dsimp only at hsucc
  rw [hu] at hsucc
  dsimp only at hsucc
  have hdb2 := congrArg Prod.fst hsucc
  dsimp only at hdb2
  subst hdb2
  constructor
  · intro rt hrt
    have hpr := List.of_mem_filter hrt
    simpa [bne_iff_ne] using hpr
  · intro tok jwtVerify genAccess now2 hjwt
    unfold refreshAccessToken
    dsimp only
    rw [hjwt]
    dsimp only
    have hfind : (db.refreshTokens.filter (fun rt => rt.userId != u.id)).find?
        (fun r => r.token == tok && r.userId == u.id) = none := by
      rw [List.find?_eq_none]
      intro r hr
      have hpr := List.of_mem_filter hr
      simp only [bne_iff_ne] at hpr
      simp only [Bool.and_eq_true, beq_iff_eq, not_and]
      intro _ h2
      exact hpr h2
    rw [hfind]

/-- Concrete instance of C3: after a successful reset for user 1, that
user's previously stored refresh token "rtok" (with a valid signature
naming user 1) is refused with 401. -/
theorem c3_reset_revokes_sessions_witness :
    verifyReset (fun s => s) [⟨10, 1, "tok", 1000, false⟩] "tok" 0 =
      some ⟨10, 1, "tok", 1000, false⟩ ∧
    refreshAccessToken
      ⟨[⟨1, "a@mictech.edu.in", some "newpassword", none, "A"⟩],
        [⟨10, 1, "tok", 1000, true⟩], []⟩
      (some "rtok") (fun s => if s == "rtok" then some 1 else none)
      (fun _ => "acc") 50 =
      (⟨[⟨1, "a@mictech.edu.in", some "newpassword", none, "A"⟩],
          [⟨10, 1, "tok", 1000, true⟩], []⟩,
       .err 401 "Invalid refresh token") :=
  ⟨by decide,
   (c3_reset_revokes_sessions (fun s => s) (fun s => s)
     ⟨[⟨1, "a@mictech.edu.in", some "h", none, "A"⟩],
       [⟨10, 1, "tok", 1000, false⟩], [⟨99, 1, "rtok", 999999⟩]⟩
     "tok" "newpassword" 0
     ⟨[⟨1, "a@mictech.edu.in", some "newpassword", none, "A"⟩],
       [⟨10, 1, "tok", 1000, true⟩], []⟩
     ⟨10, 1, "tok", 1000, false⟩
     ⟨1, "a@mictech.edu.in", some "h", none, "A"⟩
     (by decide) (by decide) (by decide)).2
     "rtok" (fun s => if s == "rtok" then some 1 else none) (fun _ => "acc") 50
     (by decide)⟩

/-! ### Claim C1 -/

/-- A forgot-password call never changes the user collection. -/
theorem forgotStep_users (hash : String → String) (email : String) (db : AuthDB)
    (c : ForgotCall) : (forgotStep hash email db c).users = db.users := by
  unfold forgotStep forgotPassword
  cases db.users.find? (fun u => u.email == lowerStr email) with
  | none => rfl
  | some user =>
    dsimp only
    split <;> rfl

/-- The marking pass of token issuance changes only the used flag. -/
theorem markUser_tokenHash (uid : Nat) (r : PasswordResetRec) :
    (if r.userId == uid && r.used == false then { r with used := true } else r).tokenHash
      = r.tokenHash := by
  split <;> rfl

/-- Reduction of an issuing forgot-password step: all prior unused records
of the user are marked used, then the fresh record is appended. -/
theorem forgotStep_issue (hash : String → String) (email : String) (db : AuthDB)
    (c : ForgotCall) (u : UserRec)
    (hu : db.users.find? (fun v => v.email == lowerStr email) = some u)
    (hcap : (u.googleId.isSome && u.passwordHash.isNone) = false) :
    (forgotStep hash email db c).resets =
      db.resets.map (fun r =>
        if r.userId == u.id && r.used == false then { r with used := true } else r)
      ++ [⟨c.newId, u.id, hash c.tok, c.now + 15 * 60 * 1000, false⟩] := by
  unfold forgotStep forgotPassword
  rw [hu]
  dsimp only
  rw [hcap]
  simp [ForgotCall.tok]

/-- Directly after an issuing step the user has exactly one unused reset
record: the freshly created one. -/
theorem countUnused_after_issue (hash : String → String) (email : String)
    (db : AuthDB) (c : ForgotCall) (u : UserRec)
    (hu : db.users.find? (fun v => v.email == lowerStr email) = some u)
    (hcap : (u.googleId.isSome && u.passwordHash.isNone) = false) :
    countUnusedResets (forgotStep hash email db c).resets u.id = 1 := by
  rw [forgotStep_issue hash email db c u hu hcap]
  unfold countUnusedResets
  rw [List.filter_append]
  have h1 : (db.resets.map (fun r =>
      if r.userId == u.id && r.used == false then { r with used := true } else r)).filter
        (fun r => r.userId == u.id && r.used == false) = [] := by
    rw [List.filter_eq_nil_iff]
    intro r' hr'
    rcases List.mem_map.mp hr' with ⟨r0, hr0, rfl⟩
    by_cases hc : (r0.userId == u.id && r0.used == false) = true
    · rw [if_pos hc]; simp
    · rw [if_neg hc]; simpa using hc
  rw [h1]
  simp

/-- After a nonempty sequence of issuing forgot-password calls the user
has exactly one unused reset record. -/
theorem countUnused_after_seq (hash : String → String) (email : String) (u : UserRec) :
    ∀ (cs : List ForgotCall) (c : ForgotCall) (db : AuthDB),
      db.users.find? (fun v => v.email == lowerStr email) = some u →
      (u.googleId.isSome && u.passwordHash.isNone) = false →
      countUnusedResets (forgotSeq hash db email (c :: cs)).resets u.id = 1 := by
  intro cs
  induction cs with
  | nil =>
    intro c db hu hcap
    exact countUnused_after_issue hash email db c u hu hcap
  | cons c2 cs2 ih =>
    intro c db hu hcap
    exact ih c2 (forgotStep hash email db c)
      (by rw [forgotStep_users]; exact hu) hcap

/-- A forgot-password step never clears a used flag, so records that are
used and carry a given digest stay used. -/
theorem forgotStep_preserves_used (hash : String → String) (email : String)
    (db : AuthDB) (c : ForgotCall) (H : String)
    (hP : ∀ r ∈ db.resets, r.tokenHash = H → r.used = true)
    (hne : hash c.tok ≠ H) :
    ∀ r ∈ (forgotStep hash email db c).resets, r.tokenHash = H → r.used = true := by
  unfold forgotStep forgotPassword
  cases hu : db.users.find? (fun v => v.email == lowerStr email) with
  | none => exact hP
  | some user =>
    dsimp only
    split
    · exact hP
    · dsimp only
      intro r hr hh
      rcases List.mem_append.mp hr with hm | hm
      · rcases List.mem_map.mp hm with ⟨r0, hr0, rfl⟩
        rw [markUser_tokenHash] at hh
        by_cases hc : (r0.userId == user.id && r0.used == false) = true
        · rw [if_pos hc]
        · rw [if_neg hc]
          exact hP r0 hr0 hh
      · have hr1 : r = ⟨c.newId, user.id, hash (bytesToHex c.bytes),
            c.now + 15 * 60 * 1000, false⟩ := by simpa using hm
        rw [hr1] at hh
        exact absurd hh hne

/-- Once every record carrying a digest is used, any further sequence of
forgot-password calls issuing different tokens keeps them all used. -/
theorem forgotSeq_preserves_used (hash : String → String) (email : String)
    (H : String) :
    ∀ (calls : List ForgotCall) (db : AuthDB),
      (∀ r ∈ db.resets, r.tokenHash = H → r.used = true) →
      (∀ c2 ∈ calls, hash c2.tok ≠ H) →
      ∀ r ∈ (forgotSeq hash db email calls).resets, r.tokenHash = H → r.used = true := by
  intro calls
  induction calls with
  | nil => intro db hP _; exact hP
  | cons c cs ih =>
    intro db hP hne
    exact ih (forgotStep hash email db c)
      (forgotStep_preserves_used hash email db c H hP (hne c (by simp)))
      (fun c2 hc2 => hne c2 (by simp [hc2]))

/-- After the second issuing call, every record carrying the digest of the
first call's token is used: the second call marks the first call's fresh
record, no pre-existing record carried that digest, and the second fresh
record carries a different digest. -/
theorem used_after_second_issue (hash : String → String)
    (hinj : Function.Injective hash) (email : String) (db : AuthDB)
    (c c2 : ForgotCall) (u : UserRec)
    (hu : db.users.find? (fun v => v.email == lowerStr email) = some u)
    (hcap : (u.googleId.isSome && u.passwordHash.isNone) = false)
    (hfresh : ∀ r ∈ db.resets, r.tokenHash ≠ hash c.tok)
    (hd : c2.tok ≠ c.tok) :
    ∀ r ∈ (forgotStep hash email (forgotStep hash email db c) c2).resets,
      r.tokenHash = hash c.tok → r.used = true := by
  have h1 := forgotStep_issue hash email db c u hu hcap
  have hu1 : (forgotStep hash email db c).users.find?
      (fun v => v.email == lowerStr email) = some u := by
    rw [forgotStep_users]; exact hu
  have h2 := forgotStep_issue hash email (forgotStep hash email db c) c2 u hu1 hcap
  rw [h2]
  intro r hr hh
  rcases List.mem_append.mp hr with hm | hm
  · rcases List.mem_map.mp hm with ⟨r1, hr1, rfl⟩
    rw [markUser_tokenHash] at hh
    rw [h1] at hr1
    rcases List.mem_append.mp hr1 with hm1 | hm1
    · rcases List.mem_map.mp hm1 with ⟨r0, hr0, rfl⟩
      rw [markUser_tokenHash] at hh
      exact absurd hh (hfresh r0 hr0)
    · have hr1e : r1 = ⟨c.newId, u.id, hash c.tok, c.now + 15 * 60 * 1000, false⟩ := by
        simpa using hm1
      rw [hr1e]
      simp
  · have hre : r = ⟨c2.newId, u.id, hash c2.tok, c2.now + 15 * 60 * 1000, false⟩ := by
      simpa using hm
    rw [hre] at hh
    exact absurd (hinj hh) hd

/-- The unused-and-unexpired records of a user are among the unused ones. -/
theorem countActive_le_countUnused (resets : List PasswordResetRec) (uid now : Nat) :
    countActiveResets resets uid now ≤ countUnusedResets resets uid := by
  induction resets with
  | nil => exact Nat.le_refl 0
  | cons r t ih =>
    unfold countActiveResets countUnusedResets
    unfold countActiveResets countUnusedResets at ih
    rw [List.filter_cons, List.filter_cons]
    by_cases h1 : (r.userId == uid && r.used == false) = true
    · rw [if_pos h1]
      by_cases h2 : (r.userId == uid && r.used == false && decide (now < r.expiresAt)) = true
      · rw [if_pos h2]
        simpa using Nat.succ_le_succ ih
      · rw [if_neg h2]
        simp only [List.length_cons]
        exact Nat.le_succ_of_le ih
    · have hx : (r.userId == uid && r.used == false) = false := by
        simpa using h1
      have h2 : (r.userId == uid && r.used == false && decide (now < r.expiresAt)) = false := by
        rw [hx, Bool.false_and]
      have hnA : ¬((r.userId == uid && r.used == false &&
          decide (now < r.expiresAt)) = true) := by
        simp only [h2]; exact Bool.false_ne_true
      have hnU : ¬((r.userId == uid && r.used == false) = true) := by
        simp only [hx]; exact Bool.false_ne_true
      rw [if_neg hnA, if_neg hnU]
      exact ih

/-- C1: after any nonempty sequence of forgot-password calls for a
password-capable user — with fresh, pairwise-distinct random tokens and a
collision-free digest — the user has exactly one unused reset record
(hence at most one unused and unexpired at every instant), and once a
later call has run, verifying the first call's plaintext token fails at
every instant. Quantifying over the starting database makes the last part
apply to every non-final issued token. -/
theorem c1_single_active_reset
    (hash : String → String) (hinj : Function.Injective hash)
    (db : AuthDB) (email : String) (u : UserRec)
    (hu : db.users.find? (fun v => v.email == lowerStr email) = some u)
    (hcap : (u.googleId.isSome && u.passwordHash.isNone) = false)
    (c : ForgotCall) (rest : List ForgotCall)
    (hfresh : ∀ r ∈ db.resets, r.tokenHash ≠ hash c.tok)
    (hdist : ∀ c2 ∈ rest, c2.tok ≠ c.tok) :
    countUnusedResets (forgotSeq hash db email (c :: rest)).resets u.id = 1 ∧
    (∀ now2, countActiveResets (forgotSeq hash db email (c :: rest)).resets u.id now2 ≤ 1) ∧
    (rest ≠ [] → ∀ now2,
      verifyReset hash (forgotSeq hash db email (c :: rest)).resets c.tok now2 = none) := by
  have hcount := countUnused_after_seq hash email u rest c db hu hcap
  refine ⟨hcount, ?_, ?_⟩
  · intro now2
    exact le_trans (countActive_le_countUnused _ u.id now2) (le_of_eq hcount)
  · intro hne now2
    cases rest with
    | nil => exact absurd rfl hne
    | cons c2 cs2 =>
      apply verifyReset_none_of
      exact forgotSeq_preserves_used hash email (hash c.tok) cs2
        (forgotStep hash email (forgotStep hash email db c) c2)
        (used_after_second_issue hash hinj email db c c2 u hu hcap hfresh
          (hdist c2 (by simp)))
        (fun c3 hc3 heq => hdist c3 (by simp [hc3]) (hinj heq))

/-- Concrete instance of C1: two forgot-password calls for the same user
with distinct random bytes; afterwards exactly one unused record exists
and the first issued token no longer verifies. -/
theorem c1_single_active_reset_witness :
    countUnusedResets (forgotSeq (fun s => s)
      ⟨[⟨1, "a@mictech.edu.in", some "h", none, "A"⟩], [], []⟩
      "a@mictech.edu.in" [⟨[0], 100, true, 0⟩, ⟨[1], 101, true, 5⟩]).resets 1 = 1 ∧
    countActiveResets (forgotSeq (fun s => s)
      ⟨[⟨1, "a@mictech.edu.in", some "h", none, "A"⟩], [], []⟩
      "a@mictech.edu.in" [⟨[0], 100, true, 0⟩, ⟨[1], 101, true, 5⟩]).resets 1 99 ≤ 1 ∧
    verifyReset (fun s => s) (forgotSeq (fun s => s)
      ⟨[⟨1, "a@mictech.edu.in", some "h", none, "A"⟩], [], []⟩
      "a@mictech.edu.in" [⟨[0], 100, true, 0⟩, ⟨[1], 101, true, 5⟩]).resets
      (ForgotCall.tok ⟨[0], 100, true, 0⟩) 99 = none := by
  have h := c1_single_active_reset (fun s => s) (fun a b hab => hab)
    ⟨[⟨1, "a@mictech.edu.in", some "h", none, "A"⟩], [], []⟩
    "a@mictech.edu.in" ⟨1, "a@mictech.edu.in", some "h", none, "A"⟩
    (by decide) (by decide) ⟨[0], 100, true, 0⟩ [⟨[1], 101, true, 5⟩]
    (by intro r hr; simp at hr) (by decide)
  exact ⟨h.1, h.2.1 99, h.2.2 (by simp) 99⟩
